import Mathlib

/-!
Shallow embedding of the overdue-task detection pipeline
(`apps/api/src/tasks/overdue-scheduler.service.ts`) and of the
daily-updates file validation (`DailyUpdatesService.validateFile`),
together with proofs about the properties stated in the specification.

Timestamps are millisecond epoch values (`Date.getTime()`), embedded as `Int`.
The Prisma store is embedded as a list of task records; each scan is a pure
function from a scan state (task store + durable notification log + emitted
real-time events) to a new scan state.
-/

namespace Nusuk

abbrev Timestamp := Int

/-- A task row, restricted to the fields read or written by the scheduler
(`include: assignments: select userId` is embedded as the list of user ids). -/
structure Task where
  id : Nat
  title : String
  titleAr : String
  dueDate : Option Timestamp
  status : String
  isDeleted : Bool
  lastOverdueNotifiedAt : Option Timestamp
  assigneeUserId : Option String
  createdById : Option String
  assignments : List String
  trackId : Option String
deriving Repr, DecidableEq

/-- Payload of `notifications.createForUsers` (field `type` in the source). -/
structure NotificationPayload where
  type : String
  title : String
  titleAr : String
  body : String
  bodyAr : String
  entityType : String
  entityId : Nat
  trackId : Option String
deriving Repr, DecidableEq

/-- A durable notification record: one `createForUsers` call. -/
structure NotificationRecord where
  userIds : List String
  payload : NotificationPayload
deriving Repr, DecidableEq

/-- One `events.emitToUser(uid, 'notification.new', ...)` call. -/
structure EmittedEvent where
  userId : String
  eventName : String
  payloadType : String
  taskId : Nat
  titleAr : String
deriving Repr, DecidableEq

/-- The observable state a scan run reads and writes. -/
structure ScanState where
  tasks : List Task
  notifications : List NotificationRecord
  events : List EmittedEvent
deriving Repr, DecidableEq

/-- `Set.add` of a JS `Set<string>`: insertion order, duplicates collapse. -/
def addToSet (s : List String) (x : String) : List String :=
  if x ∈ s then s else s ++ [x]

/-- Recipient set of the 15-minute scan (lines 45-48):
assignee, then creator, then every assignment user. -/
def collectRecipients (t : Task) : List String :=
  let s1 := match t.assigneeUserId with
    | some a => addToSet [] a
    | none => []
  let s2 := match t.createdById with
    | some c => addToSet s1 c
    | none => s1
  t.assignments.foldl addToSet s2

/-- Recipient set of the daily reminder scan (lines 111-113):
assignee, then every assignment user; the creator is not added. -/
def collectDailyRecipients (t : Task) : List String :=
  let s1 := match t.assigneeUserId with
    | some a => addToSet [] a
    | none => []
  t.assignments.foldl addToSet s1

/-- JS `task.trackId || undefined`: `null` and the empty string are falsy. -/
def jsOrUndefined (s : Option String) : Option String :=
  match s with
  | some v => if v = "" then none else some v
  | none => none

/-- Where-clause of the 15-minute scan query (lines 26-31).
A `null` dueDate never satisfies `dueDate: lt now`. -/
def isNewlyOverdue (now : Timestamp) (t : Task) : Bool :=
  !t.isDeleted
    && (match t.dueDate with
        | some d => decide (d < now)
        | none => false)
    && !(t.status == "completed")
    && !(t.status == "cancelled")
    && t.lastOverdueNotifiedAt == none

/-- Where-clause of the daily reminder query (lines 94-99):
same as `isNewlyOverdue` except `lastOverdueNotifiedAt: not null`. -/
def isStillOverdue (now : Timestamp) (t : Task) : Bool :=
  !t.isDeleted
    && (match t.dueDate with
        | some d => decide (d < now)
        | none => false)
    && !(t.status == "completed")
    && !(t.status == "cancelled")
    && !(t.lastOverdueNotifiedAt == none)

/-- `findMany` of the 15-minute scan: filter, `take: 100`. -/
def selectNewlyOverdue (now : Timestamp) (tasks : List Task) : List Task :=
  (tasks.filter (isNewlyOverdue now)).take 100

/-- `findMany` of the daily reminder scan: filter, `take: 200`. -/
def selectStillOverdue (now : Timestamp) (tasks : List Task) : List Task :=
  (tasks.filter (isStillOverdue now)).take 200

/-- Payload of the first-notification path (lines 51-60). -/
def overduePayload (t : Task) : NotificationPayload :=
  { type := "task_overdue"
    title := "Task Overdue"
    titleAr := "مهمة متأخرة"
    body := "Task \"" ++ t.title ++ "\" is overdue"
    bodyAr := "المهمة \"" ++ t.titleAr ++ "\" تجاوزت الموعد المحدد"
    entityType := "task"
    entityId := t.id
    trackId := jsOrUndefined t.trackId }

/-- `prisma.task.update(data: lastOverdueNotifiedAt := stamp)` on the store. -/
def stampTask (tasks : List Task) (id : Nat) (stamp : Timestamp) : List Task :=
  tasks.map fun t =>
    if t.id = id then { t with lastOverdueNotifiedAt := some stamp } else t

/-- Loop body of `detectOverdueTasks` (lines 43-77) for one task, on the
success path: when the recipient set is non-empty, one durable notification
and one real-time event per recipient; in every case the idempotency stamp. -/
def processOverdueTask (now : Timestamp) (s : ScanState) (t : Task) : ScanState :=
  let userIds := collectRecipients t
  { tasks := stampTask s.tasks t.id now
    notifications := s.notifications ++
      (if userIds ≠ [] then
        [{ userIds := userIds, payload := overduePayload t }]
       else [])
    events := s.events ++
      (if userIds ≠ [] then
        userIds.map (fun u =>
          { userId := u, eventName := "notification.new",
            payloadType := "task_overdue", taskId := t.id, titleAr := t.titleAr })
       else []) }

/-- One failure-free run of the 15-minute scan `detectOverdueTasks`. -/
def detectOverdueTasks (now : Timestamp) (s : ScanState) : ScanState :=
  (selectNewlyOverdue now s.tasks).foldl (processOverdueTask now) s

/-- `Math.ceil((now - due) / (1000*60*60*24))` (line 116), over exact
rational division as the real-valued reading of the source expression. -/
def daysDiff (now due : Timestamp) : Int :=
  ⌈((now - due : Int) : ℚ) / ((1000 * 60 * 60 * 24 : Int) : ℚ)⌉

/-- Payload of the daily reminder path (lines 118-127). The selection
guarantees `dueDate` is non-null, so the `getD` default is never read. -/
def reminderPayload (now : Timestamp) (t : Task) : NotificationPayload :=
  let dd := daysDiff now (t.dueDate.getD 0)
  { type := "task_overdue"
    title := "Overdue Reminder"
    titleAr := "تذكير بمهمة متأخرة"
    body := "Task \"" ++ t.title ++ "\" is " ++ toString dd ++ " days overdue"
    bodyAr := "المهمة \"" ++ t.titleAr ++ "\" متأخرة منذ " ++ toString dd ++ " يوم"
    entityType := "task"
    entityId := t.id
    trackId := jsOrUndefined t.trackId }

/-- Loop body of `sendDailyOverdueReminders` (lines 110-135) for one task:
no real-time events on this path. -/
def processReminderTask (now : Timestamp) (s : ScanState) (t : Task) : ScanState :=
  let userIds := collectDailyRecipients t
  { tasks := stampTask s.tasks t.id now
    notifications := s.notifications ++
      (if userIds ≠ [] then
        [{ userIds := userIds, payload := reminderPayload now t }]
       else [])
    events := s.events }

/-- One failure-free run of the daily scan `sendDailyOverdueReminders`. -/
def sendDailyOverdueReminders (now : Timestamp) (s : ScanState) : ScanState :=
  (selectStillOverdue now s.tasks).foldl (processReminderTask now) s

/-- The 15-minute scan loop with a fallible notification sink: when
`createForUsers` is reached for a task (non-empty recipients) and the sink
throws (`sinkFails` on that task id), control jumps to the `catch` at the
top of `detectOverdueTasks`: the stamp update for that task is skipped, the
remaining tasks are not processed, and the error is swallowed. The Bool
records whether the run aborted. -/
def runOverdueLoopWithSink (now : Timestamp) (sinkFails : Nat → Bool) :
    List Task → ScanState → ScanState × Bool
  | [], s => (s, false)
  | t :: rest, s =>
    if collectRecipients t ≠ [] ∧ sinkFails t.id = true then (s, true)
    else runOverdueLoopWithSink now sinkFails rest (processOverdueTask now s t)

/-- `detectOverdueTasks` with a fallible sink; the catch swallows the error,
so the caller always gets back the partially updated state. -/
def detectOverdueTasksWithSink (now : Timestamp) (sinkFails : Nat → Bool)
    (s : ScanState) : ScanState :=
  (runOverdueLoopWithSink now sinkFails (selectNewlyOverdue now s.tasks) s).1

/-- The daily reminder loop with a fallible notification sink. -/
def runReminderLoopWithSink (now : Timestamp) (sinkFails : Nat → Bool) :
    List Task → ScanState → ScanState × Bool
  | [], s => (s, false)
  | t :: rest, s =>
    if collectDailyRecipients t ≠ [] ∧ sinkFails t.id = true then (s, true)
    else runReminderLoopWithSink now sinkFails rest (processReminderTask now s t)

/-- `sendDailyOverdueReminders` with a fallible sink. -/
def sendDailyRemindersWithSink (now : Timestamp) (sinkFails : Nat → Bool)
    (s : ScanState) : ScanState :=
  (runReminderLoopWithSink now sinkFails (selectStillOverdue now s.tasks) s).1

/-- Index of the first task of the batch at which the sink call throws
(for the 15-minute scan); the list length when no task makes the sink throw. -/
def overdueFailIdx (sinkFails : Nat → Bool) : List Task → Nat
  | [] => 0
  | t :: rest =>
    if collectRecipients t ≠ [] ∧ sinkFails t.id = true then 0
    else overdueFailIdx sinkFails rest + 1

/-- Index of the first task of the batch at which the sink call throws
(for the daily scan). -/
def reminderFailIdx (sinkFails : Nat → Bool) : List Task → Nat
  | [] => 0
  | t :: rest =>
    if collectDailyRecipients t ≠ [] ∧ sinkFails t.id = true then 0
    else reminderFailIdx sinkFails rest + 1

/-- Lookup of a task row by id (`where: id`). -/
def getTask (tasks : List Task) (id : Nat) : Option Task :=
  tasks.find? (fun t => t.id == id)

/-- Effect of a batch of stamp updates on the store: every row whose id was
processed carries the stamp, every other row is unchanged. -/
def stampAll (tasks : List Task) (ids : List Nat) (stamp : Timestamp) : List Task :=
  tasks.map fun t =>
    if t.id ∈ ids then { t with lastOverdueNotifiedAt := some stamp } else t

/-- The durable notifications created by one 15-minute batch. -/
def overdueNotifs (L : List Task) : List NotificationRecord :=
  L.filterMap fun t =>
    if collectRecipients t ≠ [] then
      some { userIds := collectRecipients t, payload := overduePayload t }
    else none

/-- The durable notifications created by one daily reminder batch. -/
def reminderNotifs (now : Timestamp) (L : List Task) : List NotificationRecord :=
  L.filterMap fun t =>
    if collectDailyRecipients t ≠ [] then
      some { userIds := collectDailyRecipients t, payload := reminderPayload now t }
    else none

/-! ### Daily-updates file validation (`DailyUpdatesService`) -/

/-- `ALLOWED_EXTENSIONS` (daily-updates service). -/
def ALLOWED_EXTENSIONS : List String :=
  [".xlsx", ".xls", ".docx", ".doc", ".pptx", ".ppt",
   ".pdf", ".png", ".jpg", ".jpeg", ".webp",
   ".txt", ".csv", ".zip"]

/-- `BLOCKED_EXTENSIONS` (daily-updates service). -/
def BLOCKED_EXTENSIONS : List String :=
  [".exe", ".js", ".sh", ".bat", ".dll", ".apk", ".cmd",
   ".com", ".msi", ".ps1", ".vbs", ".wsf", ".scr", ".pif"]

/-- `ALLOWED_MIMES` (daily-updates service). This constant is declared in the
source but never read by any validation code path. -/
def ALLOWED_MIMES : List String :=
  ["application/vnd.openxmlformats-officedocument.spreadsheetml.sheet",
   "application/vnd.ms-excel",
   "application/vnd.openxmlformats-officedocument.wordprocessingml.document",
   "application/msword",
   "application/vnd.openxmlformats-officedocument.presentationml.presentation",
   "application/vnd.ms-powerpoint",
   "application/pdf",
   "image/png", "image/jpeg", "image/webp",
   "text/plain", "text/csv",
   "application/zip", "application/x-zip-compressed",
   "application/octet-stream"]

/-- The fields of `Express.Multer.File` read by `validateFile`. -/
structure UploadedFile where
  originalname : String
  mimetype : String
  size : Nat
deriving Repr, DecidableEq

/-- The suffix starting at the last dot of a character list, if any. -/
def extAfterLastDot : List Char → Option (List Char)
  | [] => none
  | c :: rest =>
    match extAfterLastDot rest with
    | some s => some s
    | none => if c = '.' then some ('.' :: rest) else none

/-- Node `path.extname`: the suffix of the base name from its last dot;
empty when there is no dot or the only dot is the leading character. -/
def extname (name : String) : String :=
  match name.data with
  | [] => ""
  | c :: rest =>
    if c = '.' then
      match extAfterLastDot rest with
      | some s => String.mk s
      | none => ""
    else
      match extAfterLastDot (c :: rest) with
      | some s => String.mk s
      | none => ""

/-- JS `String.prototype.toLowerCase` on the ASCII range. -/
def strToLower (s : String) : String :=
  String.mk (s.data.map Char.toLower)

/-- Default `this.maxFileSize`: `MAX_UPLOAD_MB` defaults to 25, times 1024². -/
def defaultMaxFileSize : Nat := 25 * 1024 * 1024

/-- `DailyUpdatesService.validateFile`: blocked-extension check, then
allowed-extension check, then size check. The source performs no check of
`file.mimetype`. An `Except.error` models a thrown `BadRequestException`. -/
def validateFile (maxFileSize : Nat) (f : UploadedFile) : Except String Unit :=
  let ext := strToLower (extname f.originalname)
  if ext ∈ BLOCKED_EXTENSIONS then
    .error ("نوع الملف غير مسموح: " ++ ext)
  else if ext ∉ ALLOWED_EXTENSIONS then
    .error ("نوع الملف غير مدعوم: " ++ ext ++ ". الأنواع المدعومة: " ++
      String.intercalate ", " ALLOWED_EXTENSIONS)
  else if f.size > maxFileSize then
    .error ("حجم الملف " ++ f.originalname ++ " يتجاوز الحد الأقصى (" ++
      toString (maxFileSize / 1024 / 1024) ++ " MB)")
  else .ok ()

/-! ### Concrete stores used in example runs -/

/-- A minimal qualifying task for the 15-minute scan: overdue, active,
never notified, with no recipients at all. -/
def mkTask (i : Nat) : Task :=
  { id := i, title := "T", titleAr := "م", dueDate := some (-1),
    status := "pending", isDeleted := false, lastOverdueNotifiedAt := none,
    assigneeUserId := none, createdById := none, assignments := [],
    trackId := none }

/-- A store of `n` qualifying tasks with distinct ids. -/
def taskStore (n : Nat) : List Task := (List.range n).map mkTask

/-! ### Helper lemmas about the JS set and the recipient computations -/

lemma mem_addToSet {s : List String} {a u : String} :
    u ∈ addToSet s a ↔ u ∈ s ∨ u = a := by
  simp only [addToSet]
  by_cases h : a ∈ s
  · rw [if_pos h]
    exact ⟨Or.inl, fun hu => hu.elim id (fun he => he ▸ h)⟩
  · rw [if_neg h]
    simp

lemma mem_foldl_addToSet (l : List String) :
    ∀ (s : List String) (u : String),
      u ∈ l.foldl addToSet s ↔ u ∈ s ∨ u ∈ l := by
  induction l with
  | nil => intro s u; simp
  | cons a rest ih =>
    intro s u
    simp only [List.foldl_cons, ih, mem_addToSet, List.mem_cons]
    tauto

lemma nodup_addToSet {s : List String} (h : s.Nodup) (a : String) :
    (addToSet s a).Nodup := by
  simp only [addToSet]
  by_cases ha : a ∈ s
  · rwa [if_pos ha]
  · rw [if_neg ha]
    simp [List.nodup_append, h, ha]

lemma nodup_foldl_addToSet (l : List String) :
    ∀ s : List String, s.Nodup → (l.foldl addToSet s).Nodup := by
  induction l with
  | nil => intro s h; simpa
  | cons a rest ih => intro s h; exact ih _ (nodup_addToSet h a)

lemma mem_collectRecipients (t : Task) (u : String) :
    u ∈ collectRecipients t ↔
      t.assigneeUserId = some u ∨ t.createdById = some u ∨ u ∈ t.assignments := by
  unfold collectRecipients
  cases ha : t.assigneeUserId <;> cases hc : t.createdById <;>
    simp [mem_foldl_addToSet, mem_addToSet, eq_comm] <;> tauto

lemma nodup_collectRecipients (t : Task) : (collectRecipients t).Nodup := by
  unfold collectRecipients
  apply nodup_foldl_addToSet
  cases t.assigneeUserId <;> cases t.createdById <;>
    · first
      | exact List.nodup_nil
      | apply nodup_addToSet <;> first
          | exact List.nodup_nil
          | apply nodup_addToSet List.nodup_nil

lemma mem_collectDailyRecipients (t : Task) (u : String) :
    u ∈ collectDailyRecipients t ↔
      t.assigneeUserId = some u ∨ u ∈ t.assignments := by
  unfold collectDailyRecipients
  cases ha : t.assigneeUserId <;>
    simp [mem_foldl_addToSet, mem_addToSet, eq_comm]

/-! ### Helper lemmas about stamping and the scan loops -/

@[simp] lemma overduePayload_entityId (t : Task) :
    (overduePayload t).entityId = t.id := rfl

@[simp] lemma reminderPayload_entityId (now : Timestamp) (t : Task) :
    (reminderPayload now t).entityId = t.id := rfl

@[simp] lemma stampAll_nil (ts : List Task) (c : Timestamp) :
    stampAll ts [] c = ts := by
  simp [stampAll]

lemma stampAll_stampTask (ts : List Task) (i : Nat) (ids : List Nat)
    (c : Timestamp) :
    stampAll (stampTask ts i c) ids c = stampAll ts (i :: ids) c := by
  simp only [stampAll, stampTask, List.map_map]
  refine List.map_congr_left (fun t _ => ?_)
  simp only [Function.comp_apply]
  by_cases h1 : t.id = i
  · subst h1
    by_cases h2 : t.id ∈ ids <;> simp [h2]
  · simp [h1, List.mem_cons]

lemma tasks_processOverdueTask (now : Timestamp) (s : ScanState) (t : Task) :
    (processOverdueTask now s t).tasks = stampTask s.tasks t.id now := rfl

lemma tasks_processReminderTask (now : Timestamp) (s : ScanState) (t : Task) :
    (processReminderTask now s t).tasks = stampTask s.tasks t.id now := rfl

lemma tasks_foldl_processOverdueTask (now : Timestamp) (L : List Task) :
    ∀ s : ScanState,
      (L.foldl (processOverdueTask now) s).tasks
        = stampAll s.tasks (L.map Task.id) now := by
  induction L with
  | nil => intro s; simp
  | cons t rest ih =>
    intro s
    simp only [List.foldl_cons, List.map_cons]
    rw [ih, tasks_processOverdueTask, stampAll_stampTask]

lemma tasks_foldl_processReminderTask (now : Timestamp) (L : List Task) :
    ∀ s : ScanState,
      (L.foldl (processReminderTask now) s).tasks
        = stampAll s.tasks (L.map Task.id) now := by
  induction L with
  | nil => intro s; simp
  | cons t rest ih =>
    intro s
    simp only [List.foldl_cons, List.map_cons]
    rw [ih, tasks_processReminderTask, stampAll_stampTask]

lemma notifications_foldl_processOverdueTask (now : Timestamp) (L : List Task) :
    ∀ s : ScanState,
      (L.foldl (processOverdueTask now) s).notifications
        = s.notifications ++ overdueNotifs L := by
  induction L with
  | nil => intro s; simp [overdueNotifs]
  | cons t rest ih =>
    intro s
    simp only [List.foldl_cons, overdueNotifs, List.filterMap_cons]
    rw [ih]
    by_cases h : collectRecipients t ≠ []
    · simp only [if_pos h, processOverdueTask, overdueNotifs]
      simp [h]
    · simp only [if_neg h, processOverdueTask, overdueNotifs]
      simp [h]

lemma notifications_foldl_processReminderTask (now : Timestamp) (L : List Task) :
    ∀ s : ScanState,
      (L.foldl (processReminderTask now) s).notifications
        = s.notifications ++ reminderNotifs now L := by
  induction L with
  | nil => intro s; simp [reminderNotifs]
  | cons t rest ih =>
    intro s
    simp only [List.foldl_cons, reminderNotifs, List.filterMap_cons]
    rw [ih]
    by_cases h : collectDailyRecipients t ≠ []
    · simp only [if_pos h, processReminderTask, reminderNotifs]
      simp [h]
    · simp only [if_neg h, processReminderTask, reminderNotifs]
      simp [h]

lemma runOverdueLoopWithSink_fst (now : Timestamp) (f : Nat → Bool)
    (L : List Task) :
    ∀ s : ScanState,
      (runOverdueLoopWithSink now f L s).1
        = (L.take (overdueFailIdx f L)).foldl (processOverdueTask now) s := by
  induction L with
  | nil => intro s; rfl
  | cons t rest ih =>
    intro s
    by_cases h : collectRecipients t ≠ [] ∧ f t.id = true
    · simp [runOverdueLoopWithSink, overdueFailIdx, h]
    · simp only [runOverdueLoopWithSink, overdueFailIdx, if_neg h, ih,
        List.take_succ_cons, List.foldl_cons]

lemma runReminderLoopWithSink_fst (now : Timestamp) (f : Nat → Bool)
    (L : List Task) :
    ∀ s : ScanState,
      (runReminderLoopWithSink now f L s).1
        = (L.take (reminderFailIdx f L)).foldl (processReminderTask now) s := by
  induction L with
  | nil => intro s; rfl
  | cons t rest ih =>
    intro s
    by_cases h : collectDailyRecipients t ≠ [] ∧ f t.id = true
    · simp [runReminderLoopWithSink, reminderFailIdx, h]
    · simp only [runReminderLoopWithSink, reminderFailIdx, if_neg h, ih,
        List.take_succ_cons, List.foldl_cons]

lemma overdueFailIdx_le (f : Nat → Bool) (L : List Task) :
    overdueFailIdx f L ≤ L.length := by
  induction L with
  | nil => exact Nat.le_refl 0
  | cons t rest ih =>
    by_cases h : collectRecipients t ≠ [] ∧ f t.id = true <;>
      simp [overdueFailIdx, h, Nat.succ_le_succ ih]

lemma reminderFailIdx_le (f : Nat → Bool) (L : List Task) :
    reminderFailIdx f L ≤ L.length := by
  induction L with
  | nil => exact Nat.le_refl 0
  | cons t rest ih =>
    by_cases h : collectDailyRecipients t ≠ [] ∧ f t.id = true <;>
      simp [reminderFailIdx, h, Nat.succ_le_succ ih]

lemma getTask_stampAll (c : Timestamp) (ids : List Nat) (ts : List Task) :
    ∀ t : Task, (ts.map Task.id).Nodup → t ∈ ts →
      getTask (stampAll ts ids c) t.id
        = some (if t.id ∈ ids then { t with lastOverdueNotifiedAt := some c }
                else t) := by
  induction ts with
  | nil => intro t _ ht; cases ht
  | cons u rest ih =>
    intro t hnd ht
    simp only [List.map_cons, List.nodup_cons] at hnd
    obtain ⟨hu, hrest⟩ := hnd
    simp only [stampAll, List.map_cons] at *
    rcases List.mem_cons.mp ht with rfl | htr
    · have hid : (if t.id ∈ ids then { t with lastOverdueNotifiedAt := some c }
          else t).id = t.id := by
        by_cases h : t.id ∈ ids <;> simp [h]
      simp only [getTask, List.find?_cons]
      rw [show ((if t.id ∈ ids then { t with lastOverdueNotifiedAt := some c }
          else t).id == t.id) = true by simp [hid]]
    · have hne : u.id ≠ t.id := by
        intro he
        exact hu (he ▸ List.mem_map_of_mem Task.id htr)
      have hid2 : (if u.id ∈ ids then { u with lastOverdueNotifiedAt := some c }
          else u).id = u.id := by
        by_cases h : u.id ∈ ids <;> simp [h]
      simp only [getTask, List.find?_cons]
      rw [show ((if u.id ∈ ids then { u with lastOverdueNotifiedAt := some c }
          else u).id == t.id) = false by simp [hid2, hne]]
      exact ih t hrest htr

lemma filter_isNewlyOverdue_stampAll (now c : Timestamp) (ts : List Task)
    (ids : List Nat)
    (h : ∀ t ∈ ts, isNewlyOverdue now t = true → t.id ∈ ids) :
    (stampAll ts ids c).filter (isNewlyOverdue now) = [] := by
  rw [List.filter_eq_nil_iff]
  intro a ha
  obtain ⟨t, ht, rfl⟩ := List.mem_map.mp ha
  by_cases hid : t.id ∈ ids
  · simp [hid, isNewlyOverdue]
  · rw [if_neg hid]
    intro hq
    exact hid (h t ht hq)

lemma entityId_mem_overdueNotifs {L : List Task} {r : NotificationRecord}
    (hr : r ∈ overdueNotifs L) : r.payload.entityId ∈ L.map Task.id := by
  simp only [overdueNotifs, List.mem_filterMap] at hr
  obtain ⟨t, ht, hrt⟩ := hr
  by_cases h : collectRecipients t ≠ []
  · rw [if_pos h] at hrt
    obtain rfl := Option.some_injective _ hrt
    exact List.mem_map_of_mem Task.id ht
  · rw [if_neg h] at hrt
    cases hrt

lemma countP_overdueNotifs_zero (L : List Task) (i : Nat)
    (h : i ∉ L.map Task.id) :
    (overdueNotifs L).countP (fun r => r.payload.entityId == i) = 0 := by
  rw [List.countP_eq_zero]
  intro r hr hc
  rw [beq_iff_eq] at hc
  exact h (hc ▸ entityId_mem_overdueNotifs hr)

lemma countP_overdueNotifs_entity (L : List Task) :
    ∀ t : Task, t ∈ L → (L.map Task.id).Nodup →
      (overdueNotifs L).countP (fun r => r.payload.entityId == t.id)
        = if collectRecipients t = [] then 0 else 1 := by
  induction L with
  | nil => intro t ht; cases ht
  | cons u rest ih =>
    intro t ht hnd
    simp only [List.map_cons, List.nodup_cons] at hnd
    obtain ⟨hu, hrest⟩ := hnd
    have hsplit : overdueNotifs (u :: rest)
        = (if collectRecipients u ≠ [] then
            [({ userIds := collectRecipients u,
                payload := overduePayload u } : NotificationRecord)]
           else []) ++ overdueNotifs rest := by
      simp only [overdueNotifs, List.filterMap_cons]
      by_cases h : collectRecipients u ≠ [] <;> simp [h]
    rw [hsplit, List.countP_append]
    rcases List.mem_cons.mp ht with rfl | htr
    · rw [countP_overdueNotifs_zero rest t.id hu]
      by_cases h : collectRecipients t = []
      · simp [h]
      · simp [h, List.countP_cons]
    · have hne : u.id ≠ t.id := by
        intro he
        exact hu (he ▸ List.mem_map_of_mem Task.id htr)
      have hhead : (if collectRecipients u ≠ [] then
            [({ userIds := collectRecipients u,
                payload := overduePayload u } : NotificationRecord)]
           else []).countP (fun r => r.payload.entityId == t.id) = 0 := by
        by_cases h : collectRecipients u ≠ [] <;>
          simp [h, List.countP_cons, hne]
      rw [hhead, ih t htr hrest, Nat.zero_add]

lemma lastNone_of_isNewlyOverdue {now : Timestamp} {t : Task}
    (h : isNewlyOverdue now t = true) : t.lastOverdueNotifiedAt = none := by
  simp only [isNewlyOverdue, Bool.and_eq_true, beq_iff_eq] at h
  exact h.2

lemma lastNotNone_of_isStillOverdue {now : Timestamp} {t : Task}
    (h : isStillOverdue now t = true) : t.lastOverdueNotifiedAt ≠ none := by
  simp only [isStillOverdue, Bool.and_eq_true] at h
  intro hc
  have := h.2
  simp [hc] at this

lemma getTask_stampAll_of_mem (c : Timestamp) (ids : List Nat) (ts : List Task)
    (t : Task) (hnd : (ts.map Task.id).Nodup) (ht : t ∈ ts)
    (hid : t.id ∈ ids) :
    getTask (stampAll ts ids c) t.id
      = some { t with lastOverdueNotifiedAt := some c } := by
  rw [getTask_stampAll c ids ts t hnd ht, if_pos hid]

lemma getTask_stampAll_of_not_mem (c : Timestamp) (ids : List Nat)
    (ts : List Task) (t : Task) (hnd : (ts.map Task.id).Nodup) (ht : t ∈ ts)
    (hid : t.id ∉ ids) :
    getTask (stampAll ts ids c) t.id = some t := by
  rw [getTask_stampAll c ids ts t hnd ht, if_neg hid]

lemma selectNewlyOverdue_sublist (now : Timestamp) (ts : List Task) :
    (selectNewlyOverdue now ts).Sublist ts :=
  (List.take_sublist _ _).trans (List.filter_sublist ts)

lemma selectStillOverdue_sublist (now : Timestamp) (ts : List Task) :
    (selectStillOverdue now ts).Sublist ts :=
  (List.take_sublist _ _).trans (List.filter_sublist ts)

lemma isNewlyOverdue_of_mem_select {now : Timestamp} {ts : List Task} {t : Task}
    (h : t ∈ selectNewlyOverdue now ts) : isNewlyOverdue now t = true :=
  (List.mem_filter.mp ((List.take_sublist _ _).mem h)).2

lemma isStillOverdue_of_mem_select {now : Timestamp} {ts : List Task} {t : Task}
    (h : t ∈ selectStillOverdue now ts) : isStillOverdue now t = true :=
  (List.mem_filter.mp ((List.take_sublist _ _).mem h)).2

/-- The id of the `j`-th selected task does not occur among the ids of the
first `j` selected tasks, provided the store's ids are distinct. -/
lemma id_not_mem_take_map {sel : List Task} (hnd : (sel.map Task.id).Nodup)
    {j : Nat} {t : Task} (ht : t ∈ sel.drop j) :
    t.id ∉ (sel.take j).map Task.id := by
  intro hc
  have hsplit : sel.map Task.id
      = (sel.take j).map Task.id ++ (sel.drop j).map Task.id := by
    rw [← List.map_append, List.take_append_drop]
  rw [hsplit, List.nodup_append] at hnd
  exact hnd.2.2 hc (List.mem_map_of_mem Task.id ht)

/-! ### Concrete inputs used by the claim theorems -/

/-- Task with assignee = creator = U1 and assignment users U2, U3. -/
def exampleRecipientTask : Task :=
  { id := 7, title := "t", titleAr := "ت", dueDate := some (-1),
    status := "pending", isDeleted := false, lastOverdueNotifiedAt := none,
    assigneeUserId := some "U1", createdById := some "U1",
    assignments := ["U2", "U3"], trackId := none }

/-- An already-notified overdue task whose only associated user is its
creator. -/
def creatorOnlyTask : Task :=
  { id := 8, title := "t", titleAr := "ت", dueDate := some (-1),
    status := "pending", isDeleted := false, lastOverdueNotifiedAt := some 5,
    assigneeUserId := none, createdById := some "C",
    assignments := [], trackId := none }

/-- An already-notified task that is 50 hours overdue at `now = 0`. -/
def reminderTask : Task :=
  { id := 9, title := "T", titleAr := "م", dueDate := some (-180000000),
    status := "pending", isDeleted := false, lastOverdueNotifiedAt := some (-1),
    assigneeUserId := some "A", createdById := none,
    assignments := [], trackId := none }

/-! ### Claim theorems -/

/-- Claim C4: for every task processed by the 15-minute scan, the recipient
set is the deduplicated union of the assignee (if set), the creator (if set)
and the assignment users; in particular for assignee = creator = U1 and
assignments [U2, U3] it is exactly U1, U2, U3. -/
theorem claim_C4_recipient_union :
    (∀ (t : Task) (u : String),
      u ∈ collectRecipients t ↔
        t.assigneeUserId = some u ∨ t.createdById = some u
          ∨ u ∈ t.assignments)
    ∧ (∀ t : Task, (collectRecipients t).Nodup)
    ∧ collectRecipients exampleRecipientTask = ["U1", "U2", "U3"] :=
  ⟨mem_collectRecipients, nodup_collectRecipients, by decide⟩

/-- Claim C5: the daily reminder recipient set is the union of the assignee
and the assignment users; the creator is never included unless they are also
the assignee or an assignment user. -/
theorem claim_C5_daily_recipients_exclude_creator :
    (∀ (t : Task) (u : String),
      u ∈ collectDailyRecipients t ↔
        t.assigneeUserId = some u ∨ u ∈ t.assignments)
    ∧ (∀ (t : Task) (c : String), t.createdById = some c →
        t.assigneeUserId ≠ some c → c ∉ t.assignments →
        c ∉ collectDailyRecipients t)
    ∧ collectDailyRecipients creatorOnlyTask = [] := by
  refine ⟨mem_collectDailyRecipients, ?_, by decide⟩
  intro t c _ h1 h2 h
  rcases (mem_collectDailyRecipients t c).mp h with h3 | h3
  · exact h1 h3
  · exact h2 h3

/-- Witness for claim C5: the creator C of `creatorOnlyTask` receives no
daily reminder. -/
theorem claim_C5_witness : "C" ∉ collectDailyRecipients creatorOnlyTask :=
  claim_C5_daily_recipients_exclude_creator.2.1 creatorOnlyTask "C" rfl
    (by decide) (by decide)

/-- Claim C6: the day count embedded in the daily reminder message equals
`ceil((now - dueDate) / 1 day)`; a task 50 hours overdue yields 3. -/
theorem claim_C6_reminder_days_ceil :
    (∀ (now : Timestamp) (t : Task) (d : Timestamp), t.dueDate = some d →
      (reminderPayload now t).body
        = "Task \"" ++ t.title ++ "\" is "
            ++ toString (⌈((now - d : Int) : ℚ) / ((86400000 : Int) : ℚ)⌉ : Int)
            ++ " days overdue")
    ∧ ∀ now : Timestamp, daysDiff now (now - 180000000) = 3 := by
  constructor
  · intro now t d hd
    have h : ((1000 * 60 * 60 * 24 : Int) : ℚ) = ((86400000 : Int) : ℚ) := by
      norm_num
    simp [reminderPayload, daysDiff, hd, h]
  · intro now
    have h : now - (now - 180000000) = (180000000 : Int) := by ring
    rw [daysDiff, h]
    have h2 : ((180000000 : Int) : ℚ) / ((1000 * 60 * 60 * 24 : Int) : ℚ)
        = (25 : ℚ) / 12 := by norm_num
    rw [h2, Int.ceil_eq_iff] <;> norm_num

/-- Witness for claim C6: the reminder body of a task 50 hours overdue. -/
theorem claim_C6_witness :
    (reminderPayload 0 reminderTask).body
      = "Task \"" ++ reminderTask.title ++ "\" is "
          ++ toString
              (⌈((0 - (-180000000 : Int) : Int) : ℚ) / ((86400000 : Int) : ℚ)⌉ : Int)
          ++ " days overdue" :=
  claim_C6_reminder_days_ceil.1 0 reminderTask (-180000000) rfl

/-- Claim C9 (code bug): `validateFile` never consults the file's MIME type,
although `ALLOWED_MIMES` is declared for exactly that purpose: a file whose
MIME type is outside the allow-list passes validation, and the outcome of
validation is invariant under changes of the MIME type. -/
theorem claim_C9_mime_not_checked :
    validateFile defaultMaxFileSize
        { originalname := "doc.pdf", mimetype := "application/x-msdownload",
          size := 1000 } = Except.ok ()
    ∧ "application/x-msdownload" ∉ ALLOWED_MIMES
    ∧ ∀ (m : Nat) (f : UploadedFile) (mt : String),
        validateFile m { f with mimetype := mt } = validateFile m f :=
  ⟨rfl, by decide, fun _ _ _ => rfl⟩

set_option maxRecDepth 100000 in
/-- Claim C7: one 15-minute run selects at most 100 tasks and one daily run
at most 200; with 150 qualifying tasks exactly 100 get stamped and the 50
others remain selectable. -/
theorem claim_C7_batch_caps :
    (∀ (now : Timestamp) (ts : List Task),
      (selectNewlyOverdue now ts).length ≤ 100)
    ∧ (∀ (now : Timestamp) (ts : List Task),
      (selectStillOverdue now ts).length ≤ 200)
    ∧ ((detectOverdueTasks 0
          { tasks := taskStore 150, notifications := [], events := [] }).tasks.countP
        (fun t => !(t.lastOverdueNotifiedAt == none))) = 100
    ∧ (selectNewlyOverdue 0 (detectOverdueTasks 0
          { tasks := taskStore 150, notifications := [],
            events := [] }).tasks).length = 50 := by
  refine ⟨?_, ?_, by decide, by decide⟩
  · intro now ts
    simp only [selectNewlyOverdue, List.length_take]
    exact min_le_left _ _
  · intro now ts
    simp only [selectStillOverdue, List.length_take]
    exact min_le_left _ _

lemma stampAll_get_cases (ts : List Task) (ids : List Nat) (c : Timestamp)
    (i : Nat) (h1 : i < (stampAll ts ids c).length) (h2 : i < ts.length) :
    ((stampAll ts ids c).get ⟨i, h1⟩).lastOverdueNotifiedAt = some c
      ∨ (stampAll ts ids c).get ⟨i, h1⟩ = ts.get ⟨i, h2⟩ := by
  simp only [stampAll, List.get_map]
  split
  · left; rfl
  · right; rfl

/-- A one-task store whose task qualifies for the 15-minute scan. -/
def witnessStore : ScanState :=
  { tasks := [exampleRecipientTask], notifications := [], events := [] }

/-- Claim C10: within one run of either scan, every task the run stamps
receives the identical `lastOverdueNotifiedAt` value, namely the single
`now` captured at the start of the run; all other tasks are unchanged. -/
theorem claim_C10_uniform_stamp (now : Timestamp) (s : ScanState) :
    ((detectOverdueTasks now s).tasks.length = s.tasks.length
      ∧ ∀ (i : Nat) (h1 : i < (detectOverdueTasks now s).tasks.length)
          (h2 : i < s.tasks.length),
          ((detectOverdueTasks now s).tasks.get ⟨i, h1⟩).lastOverdueNotifiedAt
              = some now
            ∨ (detectOverdueTasks now s).tasks.get ⟨i, h1⟩
                = s.tasks.get ⟨i, h2⟩)
    ∧ ((sendDailyOverdueReminders now s).tasks.length = s.tasks.length
      ∧ ∀ (i : Nat) (h1 : i < (sendDailyOverdueReminders now s).tasks.length)
          (h2 : i < s.tasks.length),
          ((sendDailyOverdueReminders now s).tasks.get
              ⟨i, h1⟩).lastOverdueNotifiedAt = some now
            ∨ (sendDailyOverdueReminders now s).tasks.get ⟨i, h1⟩
                = s.tasks.get ⟨i, h2⟩) := by
  have hd : (detectOverdueTasks now s).tasks
      = stampAll s.tasks ((selectNewlyOverdue now s.tasks).map Task.id) now :=
    tasks_foldl_processOverdueTask now _ s
  have hr : (sendDailyOverdueReminders now s).tasks
      = stampAll s.tasks ((selectStillOverdue now s.tasks).map Task.id) now :=
    tasks_foldl_processReminderTask now _ s
  constructor
  · constructor
    · rw [hd]; simp [stampAll]
    · intro i h1 h2
      rw [List.get_of_eq hd ⟨i, h1⟩]
      exact stampAll_get_cases _ _ _ i _ h2
  · constructor
    · rw [hr]; simp [stampAll]
    · intro i h1 h2
      rw [List.get_of_eq hr ⟨i, h1⟩]
      exact stampAll_get_cases _ _ _ i _ h2

/-- Witness for claim C10: in a one-task store the processed task carries
the run's `now`. -/
theorem claim_C10_witness :
    ((detectOverdueTasks 0 witnessStore).tasks.get
        ⟨0, by decide⟩).lastOverdueNotifiedAt = some 0
      ∨ (detectOverdueTasks 0 witnessStore).tasks.get ⟨0, by decide⟩
          = witnessStore.tasks.get ⟨0, by decide⟩ :=
  (claim_C10_uniform_stamp 0 witnessStore).1.2 0 (by decide) (by decide)

set_option maxRecDepth 100000 in
/-- Counterexample for claim C1: with 101 qualifying tasks, the task beyond
the 100-task batch cap satisfies every condition of the claim and yet keeps
`lastOverdueNotifiedAt = null` after one run. -/
theorem claim_C1_counterexample :
    mkTask 100 ∈ taskStore 101
    ∧ isNewlyOverdue 0 (mkTask 100) = true
    ∧ (mkTask 100).lastOverdueNotifiedAt = none
    ∧ getTask (detectOverdueTasks 0
        { tasks := taskStore 101, notifications := [],
          events := [] }).tasks 100 = some (mkTask 100) :=
  ⟨by decide, by decide, rfl, by decide⟩

/-- Claim C1 as amended: provided at most 100 tasks qualify (the batch cap),
one run stamps every qualifying task with `now` and creates exactly one
durable notification per qualifying task addressed to the union of assignee,
creator and assignment users when that union is non-empty, zero when it is
empty. -/
theorem claim_C1_first_run_notifies (now : Timestamp) (s : ScanState)
    (t : Task) (ht : t ∈ s.tasks) (hq : isNewlyOverdue now t = true)
    (hcount : (s.tasks.filter (isNewlyOverdue now)).length ≤ 100)
    (hnodup : (s.tasks.map Task.id).Nodup) :
    (detectOverdueTasks now s).notifications
        = s.notifications ++ overdueNotifs (selectNewlyOverdue now s.tasks)
    ∧ getTask (detectOverdueTasks now s).tasks t.id
        = some { t with lastOverdueNotifiedAt := some now }
    ∧ (overdueNotifs (selectNewlyOverdue now s.tasks)).countP
        (fun r => r.payload.entityId == t.id)
        = (if collectRecipients t = [] then 0 else 1)
    ∧ (∀ r ∈ overdueNotifs (selectNewlyOverdue now s.tasks),
        r.payload.entityId = t.id →
          r.userIds = collectRecipients t
          ∧ ∀ u, u ∈ r.userIds ↔
              (t.assigneeUserId = some u ∨ t.createdById = some u
                ∨ u ∈ t.assignments)) := by
  have hsel : selectNewlyOverdue now s.tasks
      = s.tasks.filter (isNewlyOverdue now) := by
    rw [selectNewlyOverdue, List.take_of_length_le hcount]
  have htf : t ∈ s.tasks.filter (isNewlyOverdue now) :=
    List.mem_filter.mpr ⟨ht, hq⟩
  have hnds : ((s.tasks.filter (isNewlyOverdue now)).map Task.id).Nodup :=
    ((List.filter_sublist s.tasks).map Task.id).nodup hnodup
  refine ⟨notifications_foldl_processOverdueTask now _ s, ?_, ?_, ?_⟩
  · have h1 : (detectOverdueTasks now s).tasks
        = stampAll s.tasks ((selectNewlyOverdue now s.tasks).map Task.id)
            now := tasks_foldl_processOverdueTask now _ s
    rw [h1]
    apply getTask_stampAll_of_mem now _ _ _ hnodup ht
    rw [hsel]
    exact List.mem_map_of_mem Task.id htf
  · rw [hsel]
    exact countP_overdueNotifs_entity _ t htf hnds
  · intro r hr hid
    rw [hsel] at hr
    simp only [overdueNotifs, List.mem_filterMap] at hr
    obtain ⟨t2, ht2, hrt⟩ := hr
    by_cases hcr : collectRecipients t2 ≠ []
    · rw [if_pos hcr] at hrt
      obtain rfl := Option.some.inj hrt
      have he : t2 = t :=
        List.inj_on_of_nodup_map hnds ht2 htf (by simpa using hid)
      subst he
      exact ⟨rfl, mem_collectRecipients t2⟩
    · rw [if_neg hcr] at hrt
      cases hrt

/-- Witness for claim C1: a one-task store; after the run the task is
stamped. -/
theorem claim_C1_witness :
    getTask (detectOverdueTasks 0 witnessStore).tasks exampleRecipientTask.id
      = some { exampleRecipientTask with lastOverdueNotifiedAt := some 0 } :=
  (claim_C1_first_run_notifies 0 witnessStore exampleRecipientTask
    (by decide) (by decide) (by decide) (by decide)).2.1

set_option maxRecDepth 100000 in
/-- Counterexample for claim C2: with 101 qualifying tasks the second run
does not select zero tasks — the capped-out task is selected again. -/
theorem claim_C2_counterexample :
    (selectNewlyOverdue 0 (detectOverdueTasks 0
        { tasks := taskStore 101, notifications := [],
          events := [] }).tasks).length = 1 := by
  decide

/-- Claim C2 as amended: provided at most 100 tasks qualify (the batch cap),
a second run of the 15-minute scan at the same instant selects zero tasks
and is a no-op, so notifications arise only on the first run. -/
theorem claim_C2_idempotent (now : Timestamp) (s : ScanState)
    (hcount : (s.tasks.filter (isNewlyOverdue now)).length ≤ 100) :
    selectNewlyOverdue now ((detectOverdueTasks now s).tasks) = []
    ∧ detectOverdueTasks now (detectOverdueTasks now s)
        = detectOverdueTasks now s := by
  have hsel : selectNewlyOverdue now s.tasks
      = s.tasks.filter (isNewlyOverdue now) := by
    rw [selectNewlyOverdue, List.take_of_length_le hcount]
  have htasks : (detectOverdueTasks now s).tasks
      = stampAll s.tasks ((s.tasks.filter (isNewlyOverdue now)).map Task.id)
          now := by
    have h : (detectOverdueTasks now s).tasks
        = stampAll s.tasks ((selectNewlyOverdue now s.tasks).map Task.id)
            now := tasks_foldl_processOverdueTask now _ s
    rwa [hsel] at h
  have hempty : selectNewlyOverdue now ((detectOverdueTasks now s).tasks) = [] := by
    simp only [selectNewlyOverdue]
    rw [htasks, filter_isNewlyOverdue_stampAll now now s.tasks _
      (fun t2 ht2 hq2 =>
        List.mem_map_of_mem Task.id (List.mem_filter.mpr ⟨ht2, hq2⟩))]
    exact List.take_nil
  refine ⟨hempty, ?_⟩
  show (selectNewlyOverdue now (detectOverdueTasks now s).tasks).foldl
      (processOverdueTask now) (detectOverdueTasks now s)
    = detectOverdueTasks now s
  rw [hempty]
  rfl

/-- Witness for claim C2: in a one-task store the second selection is
empty. -/
theorem claim_C2_witness :
    selectNewlyOverdue 0 ((detectOverdueTasks 0 witnessStore).tasks) = [] :=
  (claim_C2_idempotent 0 witnessStore (by decide)).1

/-- An overdue, never-notified task with one recipient (its assignee). -/
def failingSinkTask : Task :=
  { id := 1, title := "T", titleAr := "م", dueDate := some (-1),
    status := "pending", isDeleted := false, lastOverdueNotifiedAt := none,
    assigneeUserId := some "u1", createdById := none, assignments := [],
    trackId := none }

/-- A one-task store whose single task makes the sink throw. -/
def sinkFailStore : ScanState :=
  { tasks := [failingSinkTask], notifications := [], events := [] }

/-- A two-task store for partial-progress runs: the sink can be made to
fail on the second task only. -/
def twoTaskFailStore : ScanState :=
  { tasks := [failingSinkTask, { failingSinkTask with id := 2 }],
    notifications := [], events := [] }

/-- An already-notified overdue task (daily-reminder candidate). -/
def dailyTask (i : Nat) : Task :=
  { id := i, title := "T", titleAr := "م", dueDate := some (-100),
    status := "pending", isDeleted := false,
    lastOverdueNotifiedAt := some (-5), assigneeUserId := some "a",
    createdById := none, assignments := [], trackId := none }

/-- Counterexample for claim C3: when `createForUsers` throws while a task
is being processed, control jumps to the scan-level catch, so the stamp
update for that task is never attempted: the task keeps
`lastOverdueNotifiedAt = null` and no durable notification exists — the
claimed "marked notified without a recorded notification" state does not
arise from a sink failure. -/
theorem claim_C3_counterexample :
    (detectOverdueTasksWithSink 0 (fun _ => true) sinkFailStore).notifications
        = []
    ∧ getTask (detectOverdueTasksWithSink 0 (fun _ => true)
        sinkFailStore).tasks 1 = some failingSinkTask
    ∧ failingSinkTask.lastOverdueNotifiedAt = none :=
  ⟨by decide, by decide, rfl⟩

/-- Claim C3 as amended: if the notification sink fails on a task during
the 15-minute scan, the stamp update for that task is NOT attempted — the
task keeps `lastOverdueNotifiedAt = null` (so it is retried, a
duplicate-notification risk rather than a silent loss) and no durable
notification for it was recorded in the aborted run. -/
theorem claim_C3_sink_failure_skips_stamp (now : Timestamp)
    (f : Nat → Bool) (s : ScanState) (j : Nat)
    (hnodup : (s.tasks.map Task.id).Nodup)
    (hjdef : j = overdueFailIdx f (selectNewlyOverdue now s.tasks))
    (hj : j < (selectNewlyOverdue now s.tasks).length) :
    getTask (detectOverdueTasksWithSink now f s).tasks
        ((selectNewlyOverdue now s.tasks).get ⟨j, hj⟩).id
      = some ((selectNewlyOverdue now s.tasks).get ⟨j, hj⟩)
    ∧ ((selectNewlyOverdue now s.tasks).get
        ⟨j, hj⟩).lastOverdueNotifiedAt = none
    ∧ ∀ r ∈ (detectOverdueTasksWithSink now f s).notifications,
        r ∉ s.notifications →
          r.payload.entityId
            ≠ ((selectNewlyOverdue now s.tasks).get ⟨j, hj⟩).id := by
  have hsub : (selectNewlyOverdue now s.tasks).Sublist s.tasks :=
    selectNewlyOverdue_sublist now s.tasks
  have hnds : ((selectNewlyOverdue now s.tasks).map Task.id).Nodup :=
    (hsub.map Task.id).nodup hnodup
  have htf : (selectNewlyOverdue now s.tasks).get ⟨j, hj⟩
      ∈ selectNewlyOverdue now s.tasks := List.get_mem _ _ _
  have htfs : (selectNewlyOverdue now s.tasks).get ⟨j, hj⟩ ∈ s.tasks :=
    hsub.mem htf
  have hdropm : (selectNewlyOverdue now s.tasks).get ⟨j, hj⟩
      ∈ (selectNewlyOverdue now s.tasks).drop j := by
    rw [List.drop_eq_get_cons hj]
    exact List.mem_cons_self _ _
  have hnotmem : ((selectNewlyOverdue now s.tasks).get ⟨j, hj⟩).id
      ∉ ((selectNewlyOverdue now s.tasks).take j).map Task.id :=
    id_not_mem_take_map hnds hdropm
  have hrun : (detectOverdueTasksWithSink now f s).tasks
      = stampAll s.tasks
          (((selectNewlyOverdue now s.tasks).take j).map Task.id) now := by
    show ((runOverdueLoopWithSink now f
        (selectNewlyOverdue now s.tasks) s).1).tasks = _
    rw [runOverdueLoopWithSink_fst, ← hjdef,
      tasks_foldl_processOverdueTask]
  refine ⟨?_, ?_, ?_⟩
  · rw [hrun]
    exact getTask_stampAll_of_not_mem now _ _ _ hnodup htfs hnotmem
  · exact lastNone_of_isNewlyOverdue (isNewlyOverdue_of_mem_select htf)
  · have hnotif : (detectOverdueTasksWithSink now f s).notifications
        = s.notifications
            ++ overdueNotifs ((selectNewlyOverdue now s.tasks).take j) := by
      show ((runOverdueLoopWithSink now f
          (selectNewlyOverdue now s.tasks) s).1).notifications = _
      rw [runOverdueLoopWithSink_fst, ← hjdef,
        notifications_foldl_processOverdueTask]
    intro r hr hrnew
    rw [hnotif] at hr
    rcases List.mem_append.mp hr with h | h
    · exact absurd h hrnew
    · intro hc
      exact hnotmem (hc ▸ entityId_mem_overdueNotifs h)

/-- Witness for claim C3: a sink that always fails, over a one-task store:
the failing task keeps `lastOverdueNotifiedAt = null`. -/
theorem claim_C3_witness :
    ((selectNewlyOverdue 0 sinkFailStore.tasks).get
        ⟨0, by decide⟩).lastOverdueNotifiedAt = none :=
  (claim_C3_sink_failure_skips_stamp 0 (fun _ => true) sinkFailStore 0
    (by decide) (by decide) (by decide)).2.1

/-- Counterexample for claim C8: in the daily reminder scan, a task not yet
reached when the run aborts does not have `lastOverdueNotifiedAt = null` —
daily-scan tasks are selected precisely because the field is non-null. -/
theorem claim_C8_counterexample :
    (sendDailyRemindersWithSink 0 (fun i => i == 1)
        { tasks := [dailyTask 1, dailyTask 2], notifications := [],
          events := [] }).notifications = []
    ∧ getTask (sendDailyRemindersWithSink 0 (fun i => i == 1)
        { tasks := [dailyTask 1, dailyTask 2], notifications := [],
          events := [] }).tasks 2 = some (dailyTask 2)
    ∧ (dailyTask 2).lastOverdueNotifiedAt ≠ none :=
  ⟨by decide, by decide, by decide⟩

/-- Claim C8 as amended: an error mid-run is caught inside the scan (the
run functions are total and return the partially updated state); the
remainder of the run is aborted and partial progress is preserved: in
either scan, every task processed before the failing task keeps its stamp,
and every task not yet reached keeps its previous `lastOverdueNotifiedAt`
value — null in the 15-minute scan, non-null in the daily scan — and so
remains eligible for the next run. -/
theorem claim_C8_abort_keeps_finished_stamps (now : Timestamp)
    (f : Nat → Bool) (s : ScanState)
    (hnodup : (s.tasks.map Task.id).Nodup) :
    (∀ t ∈ (selectNewlyOverdue now s.tasks).take
        (overdueFailIdx f (selectNewlyOverdue now s.tasks)),
      getTask (detectOverdueTasksWithSink now f s).tasks t.id
        = some { t with lastOverdueNotifiedAt := some now })
    ∧ (∀ t ∈ (selectNewlyOverdue now s.tasks).drop
        (overdueFailIdx f (selectNewlyOverdue now s.tasks)),
      getTask (detectOverdueTasksWithSink now f s).tasks t.id = some t
        ∧ t.lastOverdueNotifiedAt = none)
    ∧ (∀ t ∈ (selectStillOverdue now s.tasks).take
        (reminderFailIdx f (selectStillOverdue now s.tasks)),
      getTask (sendDailyRemindersWithSink now f s).tasks t.id
        = some { t with lastOverdueNotifiedAt := some now })
    ∧ (∀ t ∈ (selectStillOverdue now s.tasks).drop
        (reminderFailIdx f (selectStillOverdue now s.tasks)),
      getTask (sendDailyRemindersWithSink now f s).tasks t.id = some t
        ∧ t.lastOverdueNotifiedAt ≠ none) := by
  have hsubN : (selectNewlyOverdue now s.tasks).Sublist s.tasks :=
    selectNewlyOverdue_sublist now s.tasks
  have hndsN : ((selectNewlyOverdue now s.tasks).map Task.id).Nodup :=
    (hsubN.map Task.id).nodup hnodup
  have hsubS : (selectStillOverdue now s.tasks).Sublist s.tasks :=
    selectStillOverdue_sublist now s.tasks
  have hndsS : ((selectStillOverdue now s.tasks).map Task.id).Nodup :=
    (hsubS.map Task.id).nodup hnodup
  have hrunN : (detectOverdueTasksWithSink now f s).tasks
      = stampAll s.tasks
          (((selectNewlyOverdue now s.tasks).take
            (overdueFailIdx f (selectNewlyOverdue now s.tasks))).map
              Task.id) now := by
    show ((runOverdueLoopWithSink now f
        (selectNewlyOverdue now s.tasks) s).1).tasks = _
    rw [runOverdueLoopWithSink_fst, tasks_foldl_processOverdueTask]
  have hrunS : (sendDailyRemindersWithSink now f s).tasks
      = stampAll s.tasks
          (((selectStillOverdue now s.tasks).take
            (reminderFailIdx f (selectStillOverdue now s.tasks))).map
              Task.id) now := by
    show ((runReminderLoopWithSink now f
        (selectStillOverdue now s.tasks) s).1).tasks = _
    rw [runReminderLoopWithSink_fst, tasks_foldl_processReminderTask]
  refine ⟨?_, ?_, ?_, ?_⟩
  · intro t ht
    rw [hrunN]
    exact getTask_stampAll_of_mem now _ _ _ hnodup
      (hsubN.mem ((List.take_sublist _ _).mem ht))
      (List.mem_map_of_mem Task.id ht)
  · intro t ht
    rw [hrunN]
    refine ⟨getTask_stampAll_of_not_mem now _ _ _ hnodup
      (hsubN.mem ((List.drop_sublist _ _).mem ht))
      (id_not_mem_take_map hndsN ht), ?_⟩
    exact lastNone_of_isNewlyOverdue
      (isNewlyOverdue_of_mem_select ((List.drop_sublist _ _).mem ht))
  · intro t ht
    rw [hrunS]
    exact getTask_stampAll_of_mem now _ _ _ hnodup
      (hsubS.mem ((List.take_sublist _ _).mem ht))
      (List.mem_map_of_mem Task.id ht)
  · intro t ht
    rw [hrunS]
    refine ⟨getTask_stampAll_of_not_mem now _ _ _ hnodup
      (hsubS.mem ((List.drop_sublist _ _).mem ht))
      (id_not_mem_take_map hndsS ht), ?_⟩
    exact lastNotNone_of_isStillOverdue
      (isStillOverdue_of_mem_select ((List.drop_sublist _ _).mem ht))

/-- Witness for claim C8: the sink fails on the second of two tasks; the
first task, processed before the failure, keeps its stamp. -/
theorem claim_C8_witness :
    getTask (detectOverdueTasksWithSink 0 (fun i => i == 2)
        twoTaskFailStore).tasks failingSinkTask.id
      = some { failingSinkTask with lastOverdueNotifiedAt := some 0 } :=
  (claim_C8_abort_keeps_finished_stamps 0 (fun i => i == 2)
    twoTaskFailStore (by decide)).1 failingSinkTask (by decide)

end Nusuk
